import Mathlib

/-!
Shallow embedding of the celestia-snapshot-finder provider-selection
pipeline (Go sources: internal/config/types.go, internal/provider/manager.go,
internal/speedtest, cmd/root.go) and proofs of the spec's claims about it.

Network interaction is modelled by explicit oracles: a health probe for a URL
is an `Option HeadResponse` (`none` = connection failure or timeout of the
`http.Client` with its 3-second timeout), and a throughput probe is an
`Option SpeedProbe` (`none` = `client.Get` error).  Go `float64` quantities
(Speed, DownloadTime) are modelled as rationals `ℚ`; `int64` sizes as `ℤ`.
-/

namespace SnapshotFinder

/-- Go struct `config.Snapshot` (internal/config/types.go): one snapshot entry of a
provider, with composite type key, chain id and URLs. -/
structure Snapshot where
  type : String
  chainID : String
  url : String
  metadataURL : String
deriving Repr, DecidableEq

/-- Go struct `config.Provider` (internal/config/types.go): a named provider with its
list of snapshots. -/
structure Provider where
  name : String
  snapshots : List Snapshot
deriving Repr, DecidableEq

/-- Go struct `provider.ProviderInfo` (internal/provider/manager.go): the mutable
candidate record flowing through the pipeline.  `speed` and `downloadTime`
are `float64` in the source, modelled as `ℚ`; `size` is `int64`, modelled
as `ℤ`. -/
structure ProviderInfo where
  name : String
  url : String
  metadataURL : String
  speed : ℚ
  size : ℤ
  downloadTime : ℚ
deriving Repr, DecidableEq

/-- The `ProviderInfo` literal built by `FilterProviders` for a matching
snapshot: only Name, URL and MetadataURL are set, the remaining fields keep
Go's zero values. -/
def mkCandidate (p : Provider) (s : Snapshot) : ProviderInfo :=
  { name := p.name, url := s.url, metadataURL := s.metadataURL
    speed := 0, size := 0, downloadTime := 0 }

/-- The condition of `FilterProviders`' inner `if`:
`s.Type == targetType && (chainID == "" || s.ChainID == chainID)`. -/
def snapshotMatches (targetType chainID : String) (s : Snapshot) : Bool :=
  s.type == targetType && (chainID == "" || s.chainID == chainID)

/-- Go method `Manager.FilterProviders` (internal/provider/manager.go lines 30-47):
two nested loops over the catalog, appending a candidate for every snapshot
whose composite type key equals `nodeType-snapshotType` and whose chain id
matches (or the chain-id filter is empty). -/
def FilterProviders (providers : List Provider) (nodeType snapshotType chainID : String) :
    List ProviderInfo :=
  let targetType := nodeType ++ "-" ++ snapshotType
  providers.foldl
    (fun result p =>
      p.snapshots.foldl
        (fun result s =>
          if snapshotMatches targetType chainID s then result ++ [mkCandidate p s]
          else result)
        result)
    []

/-- A loop that conditionally appends one element per iteration computes
`filter` followed by `map`, in input order. -/
theorem foldl_cond_append {α β : Type} (c : α → Bool) (g : α → β) :
    ∀ (l : List α) (acc : List β),
      l.foldl (fun r a => if c a then r ++ [g a] else r) acc
        = acc ++ (l.filter c).map g := by
  intro l
  induction l with
  | nil => intro acc; simp
  | cons a t ih =>
    intro acc
    by_cases h : c a
    · simp [List.foldl, h, ih, List.filter_cons]
    · simp [List.foldl, h, ih, List.filter_cons]

/-- Function `FilterProviders` equals the order-preserving `flatMap` of the
per-provider filtered snapshot lists: output order follows catalog order. -/
theorem FilterProviders_eq_flatMap (providers : List Provider)
    (nodeType snapshotType chainID : String) :
    FilterProviders providers nodeType snapshotType chainID
      = providers.flatMap (fun p =>
          (p.snapshots.filter
              (snapshotMatches (nodeType ++ "-" ++ snapshotType) chainID)).map
            (mkCandidate p)) := by
  unfold FilterProviders
  suffices h : ∀ (l : List Provider) (acc : List ProviderInfo),
      l.foldl
        (fun result p =>
          p.snapshots.foldl
            (fun result s =>
              if snapshotMatches (nodeType ++ "-" ++ snapshotType) chainID s then
                result ++ [mkCandidate p s]
              else result)
            result)
        acc
      = acc ++ l.flatMap (fun p =>
          (p.snapshots.filter
              (snapshotMatches (nodeType ++ "-" ++ snapshotType) chainID)).map
            (mkCandidate p)) by
    simpa using h providers []
  intro l
  induction l with
  | nil => intro acc; simp
  | cons p t ih =>
    intro acc
    simp only [List.foldl, List.flatMap_cons]
    rw [foldl_cond_append, ih, List.append_assoc]

/-- Go library call `strconv.ParseInt(s, 10, 64)`: an optional leading sign followed by at
least one decimal digit, with the value required to fit in a signed 64-bit
integer.  Go returns a non-nil error (treated by the caller as failure) for
an empty string, a stray sign, any non-digit character, or overflow; all of
those are `none` here.  Note Go's ParseInt accepts negative values. -/
def parseInt64 (s : String) : Option Int :=
  match s.toList with
  | [] => none
  | c :: rest =>
    let signDigits : Bool × List Char :=
      if c = '-' then (true, rest)
      else if c = '+' then (false, rest)
      else (false, c :: rest)
    let neg := signDigits.1
    let digits := signDigits.2
    if digits.isEmpty then none
    else if digits.all Char.isDigit then
      let n : Nat := digits.foldl (fun acc d => acc * 10 + (d.toNat - '0'.toNat)) 0
      let v : Int := if neg then -(n : Int) else (n : Int)
      if -(2 ^ 63) ≤ v ∧ v ≤ 2 ^ 63 - 1 then some v else none
    else none

/-- The parts of a `HEAD` response that `isHealthy` reads: the status code
and the `Content-Length` header (`resp.Header.Get` yields `""` when the
header is absent). -/
structure HeadResponse where
  statusCode : Nat
  contentLength : String
deriving Repr, DecidableEq

/-- Go method `Manager.isHealthy` (internal/provider/manager.go lines 64-106).  The
`Option HeadResponse` argument is the outcome of `m.client.Head(url)`:
`none` when the request errors (connection failure or the client's 3-second
timeout).  Returns the health verdict together with the possibly-updated
candidate (Go mutates `info` through a pointer); on any failure path the
candidate is returned untouched.  The Content-Type / Accept-Ranges reads in
the source only feed debug logging and are omitted. -/
def isHealthy : Option HeadResponse → ProviderInfo → Bool × ProviderInfo
  | none, info => (false, info)
  | some r, info =>
    if r.statusCode ≠ 200 then (false, info)
    else if r.contentLength = "" then (true, { info with size := 0 })
    else
      match parseInt64 r.contentLength with
      | none => (true, { info with size := 0 })
      | some n => (true, { info with size := n })

/-- Go method `Manager.CheckHealth` (internal/provider/manager.go lines 49-62): probe
each candidate in order, appending to `healthy` exactly those for which
`isHealthy` returns true.  `net` maps a URL to its `HEAD` outcome. -/
def CheckHealth (net : String → Option HeadResponse) (providers : List ProviderInfo) :
    List ProviderInfo :=
  providers.foldl
    (fun healthy p =>
      if (isHealthy (net p.url) p).1 then healthy ++ [(isHealthy (net p.url) p).2]
      else healthy)
    []

/-- Function `CheckHealth` keeps, in input order, exactly the candidates whose probe
succeeded, each replaced by its annotated version. -/
theorem CheckHealth_eq_filter_map (net : String → Option HeadResponse)
    (providers : List ProviderInfo) :
    CheckHealth net providers
      = (providers.filter (fun p => (isHealthy (net p.url) p).1)).map
          (fun p => (isHealthy (net p.url) p).2) := by
  unfold CheckHealth
  simpa using
    foldl_cond_append (fun p => (isHealthy (net p.url) p).1)
      (fun p => (isHealthy (net p.url) p).2) providers []

/-- Unfolding equation for `isHealthy` on a completed request. -/
theorem isHealthy_some (r : HeadResponse) (info : ProviderInfo) :
    isHealthy (some r) info =
      if r.statusCode ≠ 200 then (false, info)
      else if r.contentLength = "" then (true, { info with size := 0 })
      else
        match parseInt64 r.contentLength with
        | none => (true, { info with size := 0 })
        | some n => (true, { info with size := n }) := rfl

/-- The health verdict is true exactly when the request completed (did not
error or time out) with status 200. -/
theorem isHealthy_verdict (resp : Option HeadResponse) (info : ProviderInfo) :
    (isHealthy resp info).1 = true ↔ ∃ r, resp = some r ∧ r.statusCode = 200 := by
  cases resp with
  | none => simp [isHealthy]
  | some r =>
    by_cases h : r.statusCode = 200
    · have hv : (isHealthy (some r) info).1 = true := by
        rw [isHealthy_some, if_neg (by simp [h])]
        split
        · rfl
        · split <;> rfl
      rw [hv]
      simp only [true_iff]
      exact ⟨r, rfl, h⟩
    · have hv : (isHealthy (some r) info).1 = false := by
        rw [isHealthy_some, if_pos h]
      rw [hv]
      simp only [Bool.false_eq_true, false_iff, not_exists]
      rintro r' ⟨hr', hs⟩
      cases hr'
      exact h hs

/-- The observable outcome of the streaming read loop of `testSpeed`
(internal/speedtest/speedtest.go): the byte counts returned by the
successive `resp.Body.Read` calls made before the 10-second deadline, EOF
or a read error, and the elapsed wall-clock seconds `time.Since(start)`
(physically nonnegative). -/
structure SpeedProbe where
  chunks : List Nat
  elapsed : ℚ
deriving Repr, DecidableEq

/-- Go method `SpeedTester.testSpeed` (internal/speedtest/speedtest.go lines 62-94).
The argument is the outcome of `st.client.Get(url)`: `none` when the request
errors.  Returns the measured rate in MB/s: `totalBytes / duration / 1000 /
1000`, or 0 when the connection failed or the elapsed duration is zero. -/
def testSpeed : Option SpeedProbe → ℚ
  | none => 0
  | some probe =>
    if probe.elapsed = 0 then 0
    else (probe.chunks.sum : ℚ) / probe.elapsed / 1000 / 1000

/-- Go expression `float64(^uint64(0) >> 1)`: the sentinel `DownloadTime` assigned when no
estimate can be computed, chosen maximal so such candidates sort last. -/
def maxSentinelTime : ℚ := 2 ^ 63 - 1

/-- The body of one speed-test goroutine (internal/speedtest/speedtest.go
lines 39-55): write the measured `Speed`, then either compute `DownloadTime
= Size / (Speed * 1000 * 1000)` when both `Speed > 0` and `Size > 0`, or
assign the maximal sentinel. -/
def annotateSpeed (speed : ℚ) (p : ProviderInfo) : ProviderInfo :=
  if 0 < speed ∧ 0 < p.size then
    { p with speed := speed, downloadTime := (p.size : ℚ) / (speed * 1000 * 1000) }
  else
    { p with speed := speed, downloadTime := maxSentinelTime }

/-- Go method `SpeedTester.TestProviders` (internal/speedtest/speedtest.go lines
31-60): copy the input slice, run one goroutine per index that writes only
`Speed` and `DownloadTime` of its own slot, and join on the WaitGroup before
returning.  Each goroutine owns a distinct index, so the fan-out/fan-in is
the per-index map below; `net` maps a URL to its GET outcome. -/
def TestProviders (net : String → Option SpeedProbe) (providers : List ProviderInfo) :
    List ProviderInfo :=
  providers.map (fun p => annotateSpeed (testSpeed (net p.url)) p)

/-- Go `sort.Slice(providers, func(i, j int) bool { return providers[i].Speed
> providers[j].Speed })` (cmd/root.go lines 161-163) guarantees exactly that
the result is a permutation of the input that is ordered by the comparator:
later elements never have strictly greater speed.  `sort.Slice` is
documented as NOT stable (`sort.SliceStable` is the stable variant), so no
relation between tied elements' positions and their input positions is
guaranteed; any output satisfying this predicate is a possible result. -/
def SortSliceBySpeed (input output : List ProviderInfo) : Prop :=
  output.Perm input ∧ output.Pairwise (fun a b => b.speed ≤ a.speed)

/-- One iteration outcome of `fmt.Scanf("%d", &choice)` in the manual
selection loop: `some v` when an integer was scanned, `none` when scanning
failed (in which case `choice` keeps its previous value). -/
abbrev ScanOutcome := Option Int

/-- The manual selection loop (cmd/root.go lines 179-186): scan, then break
when `choice > 0 && choice <= n`, else print the invalid-choice message and
loop.  `script` supplies one scan outcome per iteration; the result is the
accepted choice, or `none` when the script is exhausted with the loop still
prompting. -/
def manualLoop (n : Nat) : Int → List ScanOutcome → Option Int
  | _, [] => none
  | choice, ev :: rest =>
    if 0 < ev.getD choice ∧ ev.getD choice ≤ (n : Int) then some (ev.getD choice)
    else manualLoop n (ev.getD choice) rest

/-- The selection step of `runRoot` (cmd/root.go lines 165-192): an empty
list is a defensive fatal error; a single candidate is selected directly;
otherwise manual mode runs the scan loop (starting from `choice = 0`) and
picks `providers[choice-1]`, and automatic mode picks `providers[0]`.
`.ok none` models a manual run whose scan script ran out before a valid
choice (the real loop would still be prompting). -/
def runSelection (manual : Bool) (script : List ScanOutcome) :
    List ProviderInfo → Except String (Option ProviderInfo)
  | [] => .error "no snapshots available"
  | [p] => .ok (some p)
  | p :: p' :: rest =>
    if manual then
      match manualLoop (p :: p' :: rest).length 0 script with
      | some choice => .ok ((p :: p' :: rest)[(choice - 1).toNat]?)
      | none => .ok none
    else .ok (some p)

/-- The provider-selection pipeline of `runRoot` (cmd/root.go lines
129-192), from the loaded catalog to the selected candidate: filter, fatal
error on no match, health check, fatal error on no healthy candidate, speed
test, sort, select.  `sortFn` stands for the in-place `sort.Slice` call;
claims about the sort constrain it through `SortSliceBySpeed`.  Go's
successive reassignments of the `providers` variable are inlined.  The Go
error strings interpolate the arguments with `%s`; the surrounding quote
punctuation is elided here. -/
def runPipeline (cfgProviders : List Provider) (nodeType snapshotType chainID : String)
    (healthNet : String → Option HeadResponse) (speedNet : String → Option SpeedProbe)
    (sortFn : List ProviderInfo → List ProviderInfo)
    (manual : Bool) (script : List ScanOutcome) : Except String (Option ProviderInfo) :=
  if (FilterProviders cfgProviders nodeType snapshotType chainID).length = 0 then
    .error ("no snapshots found for node type " ++ nodeType ++
      " and snapshot type " ++ snapshotType)
  else if (CheckHealth healthNet
      (FilterProviders cfgProviders nodeType snapshotType chainID)).length = 0 then
    .error "no healthy snapshots found"
  else
    runSelection manual script
      (sortFn (TestProviders speedNet
        (CheckHealth healthNet
          (FilterProviders cfgProviders nodeType snapshotType chainID))))

/-- The speed-test goroutine writes only `Speed` and `DownloadTime`: all
other fields of its slot are unchanged, and `Speed` receives exactly the
measured rate. -/
theorem annotateSpeed_fields (s : ℚ) (p : ProviderInfo) :
    (annotateSpeed s p).name = p.name ∧ (annotateSpeed s p).url = p.url ∧
    (annotateSpeed s p).metadataURL = p.metadataURL ∧
    (annotateSpeed s p).size = p.size ∧ (annotateSpeed s p).speed = s := by
  unfold annotateSpeed
  split <;> exact ⟨rfl, rfl, rfl, rfl, rfl⟩

/-- A measured rate is never negative, given that elapsed wall-clock time is
nonnegative. -/
theorem testSpeed_nonneg (conn : Option SpeedProbe)
    (h : ∀ probe, conn = some probe → 0 ≤ probe.elapsed) : 0 ≤ testSpeed conn := by
  cases conn with
  | none => simp [testSpeed]
  | some probe =>
    by_cases he : probe.elapsed = 0
    · simp [testSpeed, he]
    · have h0 : 0 ≤ probe.elapsed := h probe rfl
      have hpos : 0 < probe.elapsed := lt_of_le_of_ne h0 (Ne.symm he)
      simp only [testSpeed, he, if_false]
      positivity

/-- A zero-byte read test yields rate 0. -/
theorem testSpeed_zero_bytes (probe : SpeedProbe) (h : probe.chunks.sum = 0) :
    testSpeed (some probe) = 0 := by
  by_cases he : probe.elapsed = 0 <;> simp [testSpeed, he, h]

/-- An accepted manual choice always lies in `[1, n]`. -/
theorem manualLoop_range (n : Nat) (script : List ScanOutcome) :
    ∀ (choice c : Int), manualLoop n choice script = some c →
      0 < c ∧ c ≤ (n : Int) := by
  induction script with
  | nil => intro choice c h; cases h
  | cons ev rest ih =>
    intro choice c h
    by_cases hcond : 0 < ev.getD choice ∧ ev.getD choice ≤ (n : Int)
    · rw [manualLoop, if_pos hcond] at h
      cases h
      exact hcond
    · rw [manualLoop, if_neg hcond] at h
      exact ih (ev.getD choice) c h

/-- C2: every entry of `FilterProviders`' output originates from a catalog
snapshot whose composite type key equals `nodeType-snapshotType` and whose
chain id matches the filter (or the filter is empty), so no non-matching
entry appears; and the output equals the order-preserving flatMap of the
per-provider filtered snapshots, so output order follows catalog order.
The function is pure: no network access. -/
theorem filterProviders_sound_and_ordered (providers : List Provider)
    (nodeType snapshotType chainID : String) (info : ProviderInfo)
    (hmem : info ∈ FilterProviders providers nodeType snapshotType chainID) :
    (∃ p ∈ providers, ∃ s ∈ p.snapshots,
        s.type = nodeType ++ "-" ++ snapshotType ∧
        (chainID = "" ∨ s.chainID = chainID) ∧ info = mkCandidate p s) ∧
    FilterProviders providers nodeType snapshotType chainID
      = providers.flatMap (fun p =>
          (p.snapshots.filter
              (snapshotMatches (nodeType ++ "-" ++ snapshotType) chainID)).map
            (mkCandidate p)) := by
  refine ⟨?_, FilterProviders_eq_flatMap providers nodeType snapshotType chainID⟩
  rw [FilterProviders_eq_flatMap] at hmem
  simp only [List.mem_flatMap, List.mem_map, List.mem_filter] at hmem
  obtain ⟨p, hp, s, ⟨hs, hmatch⟩, hinfo⟩ := hmem
  unfold snapshotMatches at hmatch
  simp only [Bool.and_eq_true, Bool.or_eq_true, beq_iff_eq] at hmatch
  exact ⟨p, hp, s, hs, hmatch.1, hmatch.2, hinfo.symm⟩

/-- Witness for C2 at a concrete two-snapshot catalog: the single filter hit
for `consensus pruned` / `celestia` comes from the matching snapshot. -/
theorem filterProviders_sound_and_ordered_witness :
    ∃ p ∈ [Provider.mk "prov"
        [Snapshot.mk "consensus-pruned" "celestia" "u1" "m1",
         Snapshot.mk "bridge-archive" "celestia" "u2" "m2"]],
      ∃ s ∈ p.snapshots,
        s.type = "consensus" ++ "-" ++ "pruned" ∧
        ("celestia" = "" ∨ s.chainID = "celestia") ∧
        (ProviderInfo.mk "prov" "u1" "m1" 0 0 0) = mkCandidate p s :=
  (filterProviders_sound_and_ordered
    [Provider.mk "prov"
        [Snapshot.mk "consensus-pruned" "celestia" "u1" "m1",
         Snapshot.mk "bridge-archive" "celestia" "u2" "m2"]]
    "consensus" "pruned" "celestia"
    (ProviderInfo.mk "prov" "u1" "m1" 0 0 0) (by decide)).1

/-- C3: a probed candidate is kept exactly when its metadata-only request
completes (within the client timeout; an error or timeout is `none`) with
status 200; `CheckHealth` keeps precisely the healthy candidates, in order,
annotated by the probe — dropping is the only other disposition. -/
theorem checkHealth_keep_iff (net : String → Option HeadResponse)
    (providers : List ProviderInfo) :
    CheckHealth net providers
      = (providers.filter (fun p => (isHealthy (net p.url) p).1)).map
          (fun p => (isHealthy (net p.url) p).2) ∧
    ∀ (url : String) (info : ProviderInfo),
      (isHealthy (net url) info).1 = true ↔
        ∃ r, net url = some r ∧ r.statusCode = 200 :=
  ⟨CheckHealth_eq_filter_map net providers,
   fun url info => isHealthy_verdict (net url) info⟩

/-- Witness for C3: with one URL answering 200 and another answering 404,
`CheckHealth` keeps exactly the first candidate (with its size captured). -/
theorem checkHealth_keep_iff_witness :
    CheckHealth
      (fun u => if u = "u1" then some (HeadResponse.mk 200 "10")
        else some (HeadResponse.mk 404 ""))
      [ProviderInfo.mk "a" "u1" "" 0 0 0, ProviderInfo.mk "b" "u2" "" 0 0 0]
      = [ProviderInfo.mk "a" "u1" "" 0 10 0] :=
  (checkHealth_keep_iff
    (fun u => if u = "u1" then some (HeadResponse.mk 200 "10")
      else some (HeadResponse.mk 404 ""))
    [ProviderInfo.mk "a" "u1" "" 0 0 0, ProviderInfo.mk "b" "u2" "" 0 0 0]).1.trans
    (by decide)

/-- C5 counterexample: Go parses the size header with `strconv.ParseInt`,
which accepts negative values, so a response `Content-Length: -5` with
status 200 passes the health check with `Size = -5 < 0`, refuting both
"parseable as a non-negative integer" and "every candidate in the Health
Prober's output has size ≥ 0". -/
theorem healthSizeNonneg_counterexample :
    (isHealthy (some (HeadResponse.mk 200 "-5")) (ProviderInfo.mk "p" "u" "" 0 0 0)).1
      = true ∧
    (isHealthy (some (HeadResponse.mk 200 "-5")) (ProviderInfo.mk "p" "u" "" 0 0 0)).2.size
      = -5 ∧
    CheckHealth (fun _ => some (HeadResponse.mk 200 "-5")) [ProviderInfo.mk "p" "u" "" 0 0 0]
      = [ProviderInfo.mk "p" "u" "" 0 (-5) 0] := by
  refine ⟨?_, ?_, ?_⟩ <;> decide

/-- C5 (amended): a candidate whose probe succeeded (status 200) is healthy
regardless of the size header; its size is taken from the header exactly
when the header is present and parseable as a signed 64-bit integer (Go's
`ParseInt`, which also accepts negative values), and is recorded as 0 when
the header is absent or unparseable; consequently the size is nonnegative
whenever the header does not parse to a negative value. -/
theorem healthSizeCapture (r : HeadResponse) (info : ProviderInfo)
    (hok : r.statusCode = 200) :
    (isHealthy (some r) info).1 = true ∧
    (r.contentLength = "" → (isHealthy (some r) info).2.size = 0) ∧
    (parseInt64 r.contentLength = none → (isHealthy (some r) info).2.size = 0) ∧
    (∀ n, r.contentLength ≠ "" → parseInt64 r.contentLength = some n →
        (isHealthy (some r) info).2.size = n) ∧
    ((∀ n, parseInt64 r.contentLength = some n → 0 ≤ n) →
        0 ≤ (isHealthy (some r) info).2.size) := by
  have hunf : isHealthy (some r) info =
      if r.contentLength = "" then (true, { info with size := 0 })
      else
        match parseInt64 r.contentLength with
        | none => (true, { info with size := 0 })
        | some n => (true, { info with size := n }) := by
    rw [isHealthy_some, if_neg (by simp [hok])]
  by_cases hcl : r.contentLength = ""
  · refine ⟨?_, ?_, ?_, ?_, ?_⟩ <;> simp [hunf, hcl]
  · cases hp : parseInt64 r.contentLength with
    | none =>
      refine ⟨?_, ?_, ?_, ?_, ?_⟩ <;> simp [hunf, hcl, hp]
    | some n =>
      have hfst : (isHealthy (some r) info).1 = true := by
        rw [hunf, if_neg hcl, hp]
      have hsz : (isHealthy (some r) info).2.size = n := by
        rw [hunf, if_neg hcl, hp]
      refine ⟨hfst, fun h => absurd h hcl, fun h => ?_, fun m _ hm => ?_, fun hpos => ?_⟩
      · exact Option.noConfusion h
      · exact (Option.some.inj hm) ▸ hsz
      · rw [hsz]
        exact hpos n rfl

/-- Witness for C5 (amended): a 200 response with `Content-Length: 123`
passes the probe and records size 123. -/
theorem healthSizeCapture_witness :
    (isHealthy (some (HeadResponse.mk 200 "123")) (ProviderInfo.mk "p" "u" "" 0 0 0)).1
      = true ∧
    (isHealthy (some (HeadResponse.mk 200 "123")) (ProviderInfo.mk "p" "u" "" 0 0 0)).2.size
      = 123 :=
  ⟨(healthSizeCapture (HeadResponse.mk 200 "123") (ProviderInfo.mk "p" "u" "" 0 0 0) rfl).1,
   (healthSizeCapture (HeadResponse.mk 200 "123") (ProviderInfo.mk "p" "u" "" 0 0 0)
      rfl).2.2.2.1 123 (by decide) (by decide)⟩

/-- Field `DownloadTime` of a speed-tested slot, success branch. -/
theorem annotateSpeed_pos (s : ℚ) (p : ProviderInfo) (h : 0 < s ∧ 0 < p.size) :
    (annotateSpeed s p).downloadTime = (p.size : ℚ) / (s * 1000 * 1000) := by
  unfold annotateSpeed
  rw [if_pos h]

/-- Field `DownloadTime` of a speed-tested slot, sentinel branch. -/
theorem annotateSpeed_sentinel (s : ℚ) (p : ProviderInfo) (h : ¬(0 < s ∧ 0 < p.size)) :
    (annotateSpeed s p).downloadTime = maxSentinelTime := by
  unfold annotateSpeed
  rw [if_neg h]

/-- The speed-tested slot at index `i` is the annotated input slot. -/
theorem testProviders_getElem (net : String → Option SpeedProbe)
    (providers : List ProviderInfo) (i : Nat) (p : ProviderInfo)
    (hp : providers[i]? = some p) :
    (TestProviders net providers)[i]?
      = some (annotateSpeed (testSpeed (net p.url)) p) := by
  unfold TestProviders
  rw [List.getElem?_map, hp]
  rfl

/-- C4: the Throughput Prober returns one candidate per input candidate
(annotation only, no removal), and a candidate whose probe failed — the
connection could not be opened, or zero bytes were read — is still present
at its index, with rate 0. -/
theorem testProviders_total_and_retains (net : String → Option SpeedProbe)
    (providers : List ProviderInfo) :
    (TestProviders net providers).length = providers.length ∧
    ∀ (i : Nat) (p q : ProviderInfo), providers[i]? = some p →
      (TestProviders net providers)[i]? = some q →
      q.name = p.name ∧ q.url = p.url ∧
      ((net p.url = none ∨ ∃ probe, net p.url = some probe ∧ probe.chunks.sum = 0) →
        q.speed = 0) := by
  refine ⟨by simp [TestProviders], ?_⟩
  intro i p q hp hq
  have hqe : q = annotateSpeed (testSpeed (net p.url)) p :=
    Option.some.inj (hq.symm.trans (testProviders_getElem net providers i p hp))
  subst hqe
  obtain ⟨hn, hu, -, -, hs⟩ := annotateSpeed_fields (testSpeed (net p.url)) p
  refine ⟨hn, hu, ?_⟩
  rintro (hnone | ⟨probe, hsome, hzero⟩)
  · rw [hs, hnone]
    rfl
  · rw [hs, hsome]
    exact testSpeed_zero_bytes probe hzero

/-- Witness for C4: a single candidate whose connection fails is retained
with rate 0. -/
theorem testProviders_total_and_retains_witness :
    ∃ q, (TestProviders (fun _ => none) [ProviderInfo.mk "a" "u" "" 3 7 0])[0]?
        = some q ∧ q.name = "a" ∧ q.speed = 0 := by
  have h := (testProviders_total_and_retains (fun _ => none)
    [ProviderInfo.mk "a" "u" "" 3 7 0]).2 0 (ProviderInfo.mk "a" "u" "" 3 7 0)
    (annotateSpeed (testSpeed none) (ProviderInfo.mk "a" "u" "" 3 7 0)) rfl rfl
  exact ⟨_, rfl, h.1, h.2.2 (Or.inl rfl)⟩

/-- C10: the Throughput Prober writes only `Speed` and `DownloadTime`: the
candidate at each index of the output keeps the input slot's `Name`, `URL`,
`MetadataURL` and `Size`, and input order is preserved (the output is an
index-aligned copy; the input list itself is untouched — `TestProviders`
copies the slice before its goroutines write). -/
theorem testProviders_frame (net : String → Option SpeedProbe)
    (providers : List ProviderInfo) :
    (TestProviders net providers).length = providers.length ∧
    ∀ (i : Nat) (p q : ProviderInfo), providers[i]? = some p →
      (TestProviders net providers)[i]? = some q →
      q.name = p.name ∧ q.url = p.url ∧ q.metadataURL = p.metadataURL ∧
      q.size = p.size := by
  refine ⟨by simp [TestProviders], ?_⟩
  intro i p q hp hq
  have hqe : q = annotateSpeed (testSpeed (net p.url)) p :=
    Option.some.inj (hq.symm.trans (testProviders_getElem net providers i p hp))
  subst hqe
  obtain ⟨hn, hu, hm, hsz, -⟩ := annotateSpeed_fields (testSpeed (net p.url)) p
  exact ⟨hn, hu, hm, hsz⟩

/-- Witness for C10: a probed candidate keeps its identifying fields. -/
theorem testProviders_frame_witness :
    ∃ q, (TestProviders (fun _ => some (SpeedProbe.mk [64] 2))
        [ProviderInfo.mk "n" "u" "mu" 0 9 0])[0]? = some q ∧
      q.name = "n" ∧ q.url = "u" ∧ q.metadataURL = "mu" ∧ q.size = 9 := by
  have h := (testProviders_frame (fun _ => some (SpeedProbe.mk [64] 2))
    [ProviderInfo.mk "n" "u" "mu" 0 9 0]).2 0 (ProviderInfo.mk "n" "u" "mu" 0 9 0)
    (annotateSpeed (testSpeed (some (SpeedProbe.mk [64] 2)))
      (ProviderInfo.mk "n" "u" "mu" 0 9 0)) rfl rfl
  exact ⟨_, rfl, h.1, h.2.1, h.2.2.1, h.2.2.2⟩

/-- C6: after throughput probing, a candidate's estimated transfer time is
exactly one of: `Size / (Speed * 10^6)` (the declared size divided by the
rate converted from MB/s to bytes/s), computed precisely when both rate and
declared size are positive; or the maximal sentinel, precisely when the
rate or the declared size is zero.  Assumes the input slot's declared size
is nonnegative and elapsed probe times are nonnegative. -/
theorem downloadTime_xor (net : String → Option SpeedProbe)
    (providers : List ProviderInfo)
    (hel : ∀ url probe, net url = some probe → 0 ≤ probe.elapsed)
    (i : Nat) (p q : ProviderInfo) (hp : providers[i]? = some p)
    (hq : (TestProviders net providers)[i]? = some q) (hsize : 0 ≤ p.size) :
    Xor'
      (0 < q.speed ∧ 0 < q.size ∧
        q.downloadTime = (q.size : ℚ) / (q.speed * 1000 * 1000))
      ((q.speed = 0 ∨ q.size = 0) ∧ q.downloadTime = maxSentinelTime) := by
  have hqe : q = annotateSpeed (testSpeed (net p.url)) p :=
    Option.some.inj (hq.symm.trans (testProviders_getElem net providers i p hp))
  subst hqe
  have hs0 : 0 ≤ testSpeed (net p.url) :=
    testSpeed_nonneg (net p.url) (fun probe h => hel p.url probe h)
  obtain ⟨-, -, -, hsize_eq, hspeed_eq⟩ :=
    annotateSpeed_fields (testSpeed (net p.url)) p
  by_cases hcond : 0 < testSpeed (net p.url) ∧ 0 < p.size
  · refine Or.inl ⟨⟨?_, ?_, ?_⟩, ?_⟩
    · rw [hspeed_eq]; exact hcond.1
    · rw [hsize_eq]; exact hcond.2
    · rw [annotateSpeed_pos (testSpeed (net p.url)) p hcond, hspeed_eq, hsize_eq]
    · rintro ⟨hdisj, -⟩
      cases hdisj with
      | inl h0 => rw [hspeed_eq] at h0; exact absurd h0 (ne_of_gt hcond.1)
      | inr h0 => rw [hsize_eq] at h0; exact absurd h0 (ne_of_gt hcond.2)
  · refine Or.inr ⟨⟨?_, annotateSpeed_sentinel (testSpeed (net p.url)) p hcond⟩, ?_⟩
    · rw [hspeed_eq, hsize_eq]
      rcases not_and_or.mp hcond with h | h
      · exact Or.inl (le_antisymm (not_lt.mp h) hs0)
      · exact Or.inr (le_antisymm (not_lt.mp h) hsize)
    · rintro ⟨hpos, hpossz, -⟩
      rw [hspeed_eq] at hpos
      rw [hsize_eq] at hpossz
      exact hcond ⟨hpos, hpossz⟩

/-- Witness for C6: a candidate that reads 10^6 bytes in one second against
a declared size of 5·10^6 bytes gets the computed estimate (the success side
of the exclusive-or). -/
theorem downloadTime_xor_witness :
    Xor'
      (0 < (annotateSpeed (testSpeed (some (SpeedProbe.mk [1000000] 1)))
          (ProviderInfo.mk "a" "u" "" 0 5000000 0)).speed ∧
        0 < (annotateSpeed (testSpeed (some (SpeedProbe.mk [1000000] 1)))
          (ProviderInfo.mk "a" "u" "" 0 5000000 0)).size ∧
        (annotateSpeed (testSpeed (some (SpeedProbe.mk [1000000] 1)))
          (ProviderInfo.mk "a" "u" "" 0 5000000 0)).downloadTime
          = ((annotateSpeed (testSpeed (some (SpeedProbe.mk [1000000] 1)))
              (ProviderInfo.mk "a" "u" "" 0 5000000 0)).size : ℚ) /
            ((annotateSpeed (testSpeed (some (SpeedProbe.mk [1000000] 1)))
              (ProviderInfo.mk "a" "u" "" 0 5000000 0)).speed * 1000 * 1000))
      (((annotateSpeed (testSpeed (some (SpeedProbe.mk [1000000] 1)))
          (ProviderInfo.mk "a" "u" "" 0 5000000 0)).speed = 0 ∨
        (annotateSpeed (testSpeed (some (SpeedProbe.mk [1000000] 1)))
          (ProviderInfo.mk "a" "u" "" 0 5000000 0)).size = 0) ∧
        (annotateSpeed (testSpeed (some (SpeedProbe.mk [1000000] 1)))
          (ProviderInfo.mk "a" "u" "" 0 5000000 0)).downloadTime = maxSentinelTime) :=
  downloadTime_xor (fun _ => some (SpeedProbe.mk [1000000] 1))
    [ProviderInfo.mk "a" "u" "" 0 5000000 0]
    (fun _ probe h => by cases h; decide)
    0 (ProviderInfo.mk "a" "u" "" 0 5000000 0)
    (annotateSpeed (testSpeed (some (SpeedProbe.mk [1000000] 1)))
      (ProviderInfo.mk "a" "u" "" 0 5000000 0))
    rfl rfl (by decide)

/-- C7: the measured rate is `bytes_read / elapsed_seconds` (scaled by 10^6
into MB/s as the source stores it), and is 0 when the connection could not
be opened, when zero bytes were read, or when the elapsed time is zero; it
is never negative (elapsed wall-clock time being nonnegative). -/
theorem rateFormula (conn : Option SpeedProbe)
    (hel : ∀ probe, conn = some probe → 0 ≤ probe.elapsed) :
    (conn = none → testSpeed conn = 0) ∧
    (∀ probe, conn = some probe → probe.elapsed = 0 → testSpeed conn = 0) ∧
    (∀ probe, conn = some probe → probe.chunks.sum = 0 → testSpeed conn = 0) ∧
    (∀ probe, conn = some probe → probe.elapsed ≠ 0 →
        testSpeed conn = (probe.chunks.sum : ℚ) / probe.elapsed / 1000 / 1000) ∧
    0 ≤ testSpeed conn := by
  refine ⟨?_, ?_, ?_, ?_, testSpeed_nonneg conn hel⟩
  · intro h
    rw [h]
    rfl
  · intro probe h he
    rw [h]
    simp [testSpeed, he]
  · intro probe h hz
    rw [h]
    exact testSpeed_zero_bytes probe hz
  · intro probe h hne
    rw [h]
    simp [testSpeed, hne]

/-- Witness for C7 at a concrete successful probe (5 bytes in 1 second). -/
theorem rateFormula_witness : 0 ≤ testSpeed (some (SpeedProbe.mk [5] 1)) :=
  (rateFormula (some (SpeedProbe.mk [5] 1))
    (fun _ h => by cases h; decide)).2.2.2.2

/-- C1 counterexample: the claim asserts the sort is stable — candidates
with equal rates keep their relative input order.  The input below is two
distinct candidates with equal rates, already in (the only tie-stable)
order; yet the swapped list is also an admissible `sort.Slice` result (a
permutation ordered by the comparator), and it does not keep the input
order.  `sort.Slice` guarantees no more, and is documented as unstable, so
the stability part of the claim does not hold of the code. -/
theorem sortSlice_stability_counterexample :
    SortSliceBySpeed
      [ProviderInfo.mk "a" "ua" "" 1 0 0, ProviderInfo.mk "b" "ub" "" 1 0 0]
      [ProviderInfo.mk "b" "ub" "" 1 0 0, ProviderInfo.mk "a" "ua" "" 1 0 0] ∧
    (ProviderInfo.mk "a" "ua" "" 1 0 0).speed = (ProviderInfo.mk "b" "ub" "" 1 0 0).speed ∧
    [ProviderInfo.mk "b" "ub" "" 1 0 0, ProviderInfo.mk "a" "ua" "" 1 0 0]
      ≠ [ProviderInfo.mk "a" "ua" "" 1 0 0, ProviderInfo.mk "b" "ub" "" 1 0 0] := by
  refine ⟨⟨List.Perm.swap _ _ _, ?_⟩, ?_, ?_⟩
  · decide
  · decide
  · decide

/-- C1 (amended): any admissible result of the `sort.Slice` call is ordered
descending by measured rate — a candidate with a strictly greater rate
appears strictly earlier — and automatic mode selects index 0 of the sorted
list, which has a maximal rate among all input candidates.  (Tie order is
not guaranteed: `sort.Slice` is unstable; see the counterexample.) -/
theorem sortSlice_desc_and_auto (ps out : List ProviderInfo)
    (script : List ScanOutcome) (hsort : SortSliceBySpeed ps out) :
    (∀ (i j : Fin out.length),
        (out.get i).speed < (out.get j).speed → (j : Nat) < (i : Nat)) ∧
    ∀ (hne : out ≠ []),
      runSelection false script out = .ok (some (out.head hne)) ∧
      ∀ p ∈ ps, p.speed ≤ (out.head hne).speed := by
  obtain ⟨hperm, hpair⟩ := hsort
  constructor
  · intro i j hlt
    rcases lt_trichotomy (j : Nat) (i : Nat) with h | h | h
    · exact h
    · exfalso
      have : j = i := Fin.ext h
      subst this
      exact lt_irrefl _ hlt
    · exfalso
      have hle := List.pairwise_iff_get.mp hpair i j h
      exact absurd hlt (not_lt.mpr hle)
  · intro hne
    constructor
    · cases out with
      | nil => exact absurd rfl hne
      | cons hd tl =>
        cases tl with
        | nil => rfl
        | cons hd2 tl2 => rfl
    · intro p hp
      have hpout : p ∈ out := hperm.mem_iff.mpr hp
      cases out with
      | nil => exact absurd rfl hne
      | cons hd tl =>
        rcases List.mem_cons.mp hpout with rfl | hmem
        · exact le_refl _
        · exact (List.pairwise_cons.mp hpair).1 p hmem

/-- Witness for C1 (amended): sorting `[slow, fast]` can yield
`[fast, slow]`; automatic mode then selects `fast`, whose rate dominates. -/
theorem sortSlice_desc_and_auto_witness :
    runSelection false []
        [ProviderInfo.mk "f" "" "" 5 0 0, ProviderInfo.mk "s" "" "" 2 0 0]
      = .ok (some (ProviderInfo.mk "f" "" "" 5 0 0)) ∧
    (ProviderInfo.mk "s" "" "" 2 0 0).speed ≤ (ProviderInfo.mk "f" "" "" 5 0 0).speed := by
  have h := sortSlice_desc_and_auto
    [ProviderInfo.mk "s" "" "" 2 0 0, ProviderInfo.mk "f" "" "" 5 0 0]
    [ProviderInfo.mk "f" "" "" 5 0 0, ProviderInfo.mk "s" "" "" 2 0 0] []
    ⟨List.Perm.swap _ _ _, by decide⟩
  have h3 := h.2 (by decide)
  exact ⟨h3.1, h3.2 _ (by decide)⟩

/-- C8: in manual mode with at least two ranked candidates, the selection
loop accepts only an integer in `[1, N]`: every accepted choice is in
range, the selected candidate is the one at that (1-based) index — never
out of range — and on any out-of-range or failed scan the loop simply
re-prompts with the next scan outcome (no crash: the model loop is total).
One scan outcome is consumed per loop iteration; a failed scan leaves
`choice` at its previous (already rejected) value, as `fmt.Scanf` does. -/
theorem manualSelect_range (ps : List ProviderInfo) (script : List ScanOutcome)
    (c : Int) (hlen : 2 ≤ ps.length)
    (hc : manualLoop ps.length 0 script = some c) :
    (0 < c ∧ c ≤ (ps.length : Int)) ∧
    (∃ q, ps[(c - 1).toNat]? = some q ∧
      runSelection true script ps = .ok (some q)) ∧
    (∀ (n : Nat) (choice : Int) (ev : ScanOutcome) (rest : List ScanOutcome),
        ¬(0 < ev.getD choice ∧ ev.getD choice ≤ (n : Int)) →
        manualLoop n choice (ev :: rest) = manualLoop n (ev.getD choice) rest) := by
  have hrange := manualLoop_range ps.length script 0 c hc
  refine ⟨hrange, ?_, ?_⟩
  · obtain ⟨h1, h2⟩ := hrange
    have hidx : (c - 1).toNat < ps.length := by omega
    refine ⟨ps.get ⟨(c - 1).toNat, hidx⟩, List.getElem?_eq_getElem hidx, ?_⟩
    rcases ps with _ | ⟨p1, tl⟩
    · simp at hlen
    rcases tl with _ | ⟨p2, tl2⟩
    · simp at hlen
    have hsel : runSelection true script (p1 :: p2 :: tl2)
        = match manualLoop (p1 :: p2 :: tl2).length 0 script with
          | some choice => .ok ((p1 :: p2 :: tl2)[(choice - 1).toNat]?)
          | none => .ok none := rfl
    rw [hsel, hc]
    show Except.ok ((p1 :: p2 :: tl2)[(c - 1).toNat]?) = _
    rw [List.getElem?_eq_getElem hidx]
    rfl
  · intro n choice ev rest hinv
    have heq : manualLoop n choice (ev :: rest)
        = if 0 < ev.getD choice ∧ ev.getD choice ≤ (n : Int) then
            some (ev.getD choice)
          else manualLoop n (ev.getD choice) rest := rfl
    rw [heq, if_neg hinv]

/-- Witness for C8 with the spec's scripted sequence (invalid out-of-range,
failed scan, valid in-range): the loop accepts 2 and selects the second
candidate. -/
theorem manualSelect_range_witness :
    ∃ q, ([ProviderInfo.mk "x" "" "" 3 0 0,
        ProviderInfo.mk "y" "" "" 1 0 0] : List ProviderInfo)[((2 : Int) - 1).toNat]?
        = some q ∧
      runSelection true [some 5, none, some 2]
          [ProviderInfo.mk "x" "" "" 3 0 0, ProviderInfo.mk "y" "" "" 1 0 0]
        = .ok (some q) :=
  (manualSelect_range
    [ProviderInfo.mk "x" "" "" 3 0 0, ProviderInfo.mk "y" "" "" 1 0 0]
    [some 5, none, some 2] 2 (by decide) (by decide)).2.1

/-- C9: an empty candidate set at any stage is a terminal error.  If the
Catalog Filter matches nothing, the run fails with the no-snapshots error —
for every health oracle, speed oracle, sort and script, i.e. without the
later stages influencing (being invoked in) the run.  If the Health Prober
returns an empty set, the run fails with "no healthy snapshots found",
again for every speed oracle, sort and script.  And the selection step
itself defensively errors on an empty input list. -/
theorem emptyStageFatal (cfgProviders : List Provider)
    (nodeType snapshotType chainID : String)
    (healthNet : String → Option HeadResponse)
    (speedNet : String → Option SpeedProbe)
    (sortFn : List ProviderInfo → List ProviderInfo) (manual : Bool)
    (script : List ScanOutcome) :
    (FilterProviders cfgProviders nodeType snapshotType chainID = [] →
      runPipeline cfgProviders nodeType snapshotType chainID healthNet speedNet
          sortFn manual script
        = .error ("no snapshots found for node type " ++ nodeType ++
            " and snapshot type " ++ snapshotType)) ∧
    (FilterProviders cfgProviders nodeType snapshotType chainID ≠ [] →
      CheckHealth healthNet (FilterProviders cfgProviders nodeType snapshotType chainID)
          = [] →
      runPipeline cfgProviders nodeType snapshotType chainID healthNet speedNet
          sortFn manual script
        = .error "no healthy snapshots found") ∧
    runSelection manual script [] = .error "no snapshots available" := by
  refine ⟨?_, ?_, rfl⟩
  · intro hfil
    unfold runPipeline
    rw [if_pos (by rw [hfil]; rfl)]
  · intro hne hch
    unfold runPipeline
    rw [if_neg (fun h => hne (List.length_eq_zero.mp h)),
      if_pos (by rw [hch]; rfl)]

/-- Witness for C9: an empty catalog filters to nothing and the pipeline
fails with the no-snapshots error, whatever the probes would have said. -/
theorem emptyStageFatal_witness :
    runPipeline [] "consensus" "pruned" "celestia" (fun _ => none) (fun _ => none)
        id false []
      = .error ("no snapshots found for node type " ++ "consensus" ++
          " and snapshot type " ++ "pruned") :=
  (emptyStageFatal [] "consensus" "pruned" "celestia" (fun _ => none) (fun _ => none)
    id false []).1 rfl

end SnapshotFinder
